import Mathlib

/-!
Shallow embedding of the counter aggregation and generic comparison engine
of utassert.c, together with the declarations of utassert.h that it uses.

Machine integers are modelled as follows: `intmax_t` / `long` values are
`Int` (the theorems that need the machine range state it as a hypothesis),
`uintmax_t` / `unsigned long` values are `Nat` bit patterns below `2 ^ 64`,
`size_t` is `Nat`, and C strings / byte buffers are `List Char` /
`List Nat`.  A null pointer is the `none` of an `Option`.  Calls to the
BSP output collaborator (UT_BSP_DoText, UT_BSP_StartTestSegment,
UtAssert_DoTestSegmentReport) are recorded as events.
-/

/-- Case classification enumeration of utassert.h, as numeric values
(the C enum order): NONE=0, ABORT=1, FAILURE=2, TSF=3, TTF=4, MIR=5,
WARN=6, NA=7, BEGIN=8, END=9, INFO=10, PASS=11, FLOW=12, DEBUG=13,
MAX=14. -/
def UTASSERT_CASETYPE_NONE : Nat := 0

def UTASSERT_CASETYPE_ABORT : Nat := 1

def UTASSERT_CASETYPE_FAILURE : Nat := 2

def UTASSERT_CASETYPE_TSF : Nat := 3

def UTASSERT_CASETYPE_TTF : Nat := 4

def UTASSERT_CASETYPE_MIR : Nat := 5

def UTASSERT_CASETYPE_WARN : Nat := 6

def UTASSERT_CASETYPE_NA : Nat := 7

def UTASSERT_CASETYPE_BEGIN : Nat := 8

def UTASSERT_CASETYPE_END : Nat := 9

def UTASSERT_CASETYPE_INFO : Nat := 10

def UTASSERT_CASETYPE_PASS : Nat := 11

def UTASSERT_CASETYPE_FLOW : Nat := 12

def UTASSERT_CASETYPE_DEBUG : Nat := 13

def UTASSERT_CASETYPE_MAX : Nat := 14

/-- Comparison kinds for the generic value asserts.  The header present in
the repository lists NONE, EQ, NEQ, LT, GT, LTEQ, GTEQ and the MAX
placeholder; the constructors BITMASK_SET and BITMASK_UNSET are used by
utassert.c but their declaration is missing. Modelled from the spec:
"bitmask-set (all reference bits present in actual), bitmask-unset (no
reference bits present in actual)" are two further kinds, and the
invalid/none sentinel is never a supported kind.  Only the identity of
each constructor matters: the C dispatch `(t << 1) | s` is injective in
`(t, s)` for any distinct enum values. -/
inductive UtAssert_Compare_t where
  | NONE
  | EQ
  | NEQ
  | LT
  | GT
  | LTEQ
  | GTEQ
  | BITMASK_SET
  | BITMASK_UNSET
  | MAX
deriving DecidableEq

/-- Preferred print radix for the generic value asserts.  The header in
the repository lists DEFAULT, OCTAL, DECIMAL and HEX; the BOOLEAN
constructor is used by utassert.c but its declaration is missing.
Modelled from the spec: radix "boolean" renders nonzero as "true" and
zero as "false", and is distinct from all other radixes. -/
inductive UtAssert_Radix_t where
  | DEFAULT
  | BOOLEAN
  | OCTAL
  | DECIMAL
  | HEX
deriving DecidableEq

/-- Test counter aggregate (UtAssert_TestCounter_t of utassert.h).  The C
`uint32 CaseCount[UTASSERT_CASETYPE_MAX]` array is modelled as a function
on `Nat`; every write in the source is guarded by
`< UTASSERT_CASETYPE_MAX`, so indices at or above 14 are never touched. -/
structure UtAssert_TestCounter_t where
  TestSegmentCount : Nat
  TotalTestCases : Nat
  CaseCount : Nat → Nat

/-- The all-zero counter aggregate (static initialization, and the
`memset(..., 0, ...)` in UtAssert_BeginTest / UtAssert_EndTest). -/
def zeroCounter : UtAssert_TestCounter_t :=
  { TestSegmentCount := 0, TotalTestCases := 0, CaseCount := fun _ => 0 }

/-- Process-wide mutable state of utassert.c: the segment aggregate, the
cumulative aggregate, and the current segment name (a 64-byte buffer, so
at most 63 characters). -/
structure UtState where
  UT_SegmentCounters : UtAssert_TestCounter_t
  UT_TotalCounters : UtAssert_TestCounter_t
  CurrentSegment : List Char

/-- Initial process state: both counter aggregates zero, empty segment
name. -/
def initUtState : UtState :=
  { UT_SegmentCounters := zeroCounter, UT_TotalCounters := zeroCounter, CurrentSegment := [] }

/-- Snapshot of the per-classification counts of an aggregate, as the
list of the 14 array cells; used so that reported events are comparable
values. -/
def countsList (c : UtAssert_TestCounter_t) : List Nat :=
  (List.range UTASSERT_CASETYPE_MAX).map c.CaseCount

/-- Observable output events: a call to UtAssert_DoReport (from
UtAssertEx), a call to UT_BSP_StartTestSegment (from UtAssert_BeginTest),
a call to UtAssert_DoTestSegmentReport (from UtAssert_EndTest on a
non-empty segment), and a direct UT_BSP_DoText line (the "No test cases"
report of UtAssert_EndTest on an empty segment). -/
inductive UtEvent where
  | Report (File : List Char) (LineNum : Nat) (SegmentNum : Nat) (TestSeq : Nat)
      (MessageType : Nat) (SubsysName : List Char) (ShortDesc : List Char)
  | StartTestSegment (TestSegmentCount : Nat) (SegmentName : List Char)
  | TestSegmentReport (SegmentName : List Char) (TestSegmentCount : Nat)
      (TotalTestCases : Nat) (CaseCounts : List Nat)
  | BspText (MessageType : Nat) (Text : List Char)
deriving DecidableEq

/-- UtAssertEx of utassert.c.  Increments the segment total-case count,
reclassifies a passing expression to PASS, increments the
per-classification count only when the (numeric) classification is below
UTASSERT_CASETYPE_MAX, and reports one line.  `MessageFormat` is the
already-expanded message text; the 256-byte FinalMessage buffer of the
source truncates it to 255 characters.  Returns the expression, the new
state and the emitted events. -/
def UtAssertEx (Expression : Bool) (CaseType : Nat) (File : List Char) (Line : Nat)
    (MessageFormat : List Char) (s : UtState) : (Bool × UtState) × List UtEvent :=
  let seg1 : UtAssert_TestCounter_t :=
    { s.UT_SegmentCounters with TotalTestCases := s.UT_SegmentCounters.TotalTestCases + 1 }
  let CaseType1 : Nat := if Expression then UTASSERT_CASETYPE_PASS else CaseType
  let seg2 : UtAssert_TestCounter_t :=
    if CaseType1 < UTASSERT_CASETYPE_MAX then
      { seg1 with CaseCount := Function.update seg1.CaseCount CaseType1 (seg1.CaseCount CaseType1 + 1) }
    else seg1
  let FinalMessage : List Char := MessageFormat.take 255
  ((Expression, { s with UT_SegmentCounters := seg2 }),
    [UtEvent.Report File Line (1 + s.UT_TotalCounters.TestSegmentCount) seg2.TotalTestCases
      CaseType1 s.CurrentSegment FinalMessage])

/-- UtAssert_BeginTest of utassert.c: clears the segment aggregate,
stores the (63-character-bounded) segment name, and notifies the BSP of
segment start with ordinal `1 + UT_TotalCounters.TestSegmentCount`. -/
def UtAssert_BeginTest (SegmentName : List Char) (s : UtState) : UtState × List UtEvent :=
  ({ s with UT_SegmentCounters := zeroCounter, CurrentSegment := SegmentName.take 63 },
    [UtEvent.StartTestSegment (1 + s.UT_TotalCounters.TestSegmentCount) SegmentName])

/-- Effect of the `for (Ct = 0; Ct < UTASSERT_CASETYPE_MAX; ++Ct)` fold
loop of UtAssert_EndTest on the cumulative per-classification counts. -/
def foldCounts (total seg : Nat → Nat) : Nat → Nat :=
  fun i => if i < UTASSERT_CASETYPE_MAX then total i + seg i else total i

/-- UtAssert_EndTest of utassert.c.  When at least one case was recorded
in the segment, advances the cumulative segment counter, folds the
segment aggregate into the cumulative aggregate and reports the segment
summary; otherwise reports "No test cases".  The segment aggregate is
cleared in both cases. -/
def UtAssert_EndTest (s : UtState) : UtState × List UtEvent :=
  if 0 < s.UT_SegmentCounters.TotalTestCases then
    let newSegCount : Nat := s.UT_TotalCounters.TestSegmentCount + 1
    let localSeg : UtAssert_TestCounter_t :=
      { s.UT_SegmentCounters with TestSegmentCount := newSegCount }
    let total : UtAssert_TestCounter_t :=
      { TestSegmentCount := newSegCount,
        TotalTestCases := s.UT_TotalCounters.TotalTestCases + s.UT_SegmentCounters.TotalTestCases,
        CaseCount := foldCounts s.UT_TotalCounters.CaseCount s.UT_SegmentCounters.CaseCount }
    ({ s with UT_SegmentCounters := zeroCounter, UT_TotalCounters := total },
      [UtEvent.TestSegmentReport s.CurrentSegment localSeg.TestSegmentCount
        localSeg.TotalTestCases (countsList localSeg)])
  else
    ({ s with UT_SegmentCounters := zeroCounter },
      [UtEvent.BspText UTASSERT_CASETYPE_END ("No test cases\n".toList)])

/-- UtAssert_GetPassCount of utassert.c: cumulative PASS count. -/
def UtAssert_GetPassCount (s : UtState) : Nat :=
  s.UT_TotalCounters.CaseCount UTASSERT_CASETYPE_PASS

/-- UtAssert_GetFailCount of utassert.c: cumulative FAILURE count. -/
def UtAssert_GetFailCount (s : UtState) : Nat :=
  s.UT_TotalCounters.CaseCount UTASSERT_CASETYPE_FAILURE

/-- One recorded operation of the counter state machine: a call to
UtAssertEx, UtAssert_BeginTest or UtAssert_EndTest. -/
inductive UtOp where
  | assertCase (Expression : Bool) (CaseType : Nat) (File : List Char) (Line : Nat)
      (MessageFormat : List Char)
  | beginTest (SegmentName : List Char)
  | endTest
deriving DecidableEq

/-- State transition of one operation (output events discarded). -/
def UtStep (s : UtState) : UtOp → UtState
  | .assertCase e ct f ln m => ((UtAssertEx e ct f ln m s).1).2
  | .beginTest n => (UtAssert_BeginTest n s).1
  | .endTest => (UtAssert_EndTest s).1

/-- Run a sequence of operations from a state. -/
def UtRun (ops : List UtOp) (s : UtState) : UtState :=
  ops.foldl UtStep s

/-- Sum of the per-classification counts of the first `n` array cells
(mirrors a `for (Ct = 0; Ct < n; ++Ct)` accumulation). -/
def caseSumAux (f : Nat → Nat) : Nat → Nat
  | 0 => 0
  | n + 1 => caseSumAux f n + f n

/-- Sum of all per-classification counts of an aggregate. -/
def UtCounterSum (c : UtAssert_TestCounter_t) : Nat :=
  caseSumAux c.CaseCount UTASSERT_CASETYPE_MAX

/-- An aggregate whose total-case count equals the sum of its
per-classification counts. -/
abbrev UtCounterOK (c : UtAssert_TestCounter_t) : Prop :=
  c.TotalTestCases = UtCounterSum c

/-- An operation that keeps the total-equals-sum invariant: either not a
recorded case, or a passing case (reclassified to PASS), or a case whose
classification is within the valid range. -/
def UtOpCovered : UtOp → Bool
  | .assertCase e ct _ _ _ => e || decide (ct < UTASSERT_CASETYPE_MAX)
  | .beginTest _ => true
  | .endTest => true

/-- Cast of an `intmax_t` value to `uintmax_t` (`x.u = ValueIn` through
the union): the 64-bit two's-complement bit pattern, i.e. the value
modulo `2 ^ 64`. -/
def intmaxToUintmax (v : Int) : Nat :=
  (v % (2 ^ 64 : Int)).toNat

/-- Reading a 64-bit pattern back as a signed `intmax_t` (two's
complement). -/
def uintmaxToIntmax (n : Nat) : Int :=
  if n < 2 ^ 63 then (n : Int) else (n : Int) - 2 ^ 64

/-- Bitwise AND of two `intmax_t` values (`x.s & y.s`): the AND of their
bit patterns, read back as signed. -/
def intmaxLand (a b : Int) : Int :=
  uintmaxToIntmax (intmaxToUintmax a &&& intmaxToUintmax b)

/-- UtAssert_DoCompare of utassert.c.  The `UT_COMPARE_TYPE(t, s)` switch
dispatches on the (comparison kind, signedness) pair; an unsigned call
compares the two values through the `.u` member of the union (the
`uintmax_t` reinterpretation), a signed call through `.s`.  Unsupported
kinds fall to the `default:` branch, which yields false. -/
def UtAssert_DoCompare (ActualValueIn : Int) (CompareType : UtAssert_Compare_t)
    (ReferenceValueIn : Int) (IsUnsigned : Bool) : Bool :=
  match CompareType, IsUnsigned with
  | .EQ, true => decide (intmaxToUintmax ActualValueIn = intmaxToUintmax ReferenceValueIn)
  | .EQ, false => decide (ActualValueIn = ReferenceValueIn)
  | .NEQ, true => decide (intmaxToUintmax ActualValueIn ≠ intmaxToUintmax ReferenceValueIn)
  | .NEQ, false => decide (ActualValueIn ≠ ReferenceValueIn)
  | .LT, true => decide (intmaxToUintmax ActualValueIn < intmaxToUintmax ReferenceValueIn)
  | .LT, false => decide (ActualValueIn < ReferenceValueIn)
  | .GT, true => decide (intmaxToUintmax ActualValueIn > intmaxToUintmax ReferenceValueIn)
  | .GT, false => decide (ActualValueIn > ReferenceValueIn)
  | .LTEQ, true => decide (intmaxToUintmax ActualValueIn ≤ intmaxToUintmax ReferenceValueIn)
  | .LTEQ, false => decide (ActualValueIn ≤ ReferenceValueIn)
  | .GTEQ, true => decide (intmaxToUintmax ActualValueIn ≥ intmaxToUintmax ReferenceValueIn)
  | .GTEQ, false => decide (ActualValueIn ≥ ReferenceValueIn)
  | .BITMASK_SET, true =>
      decide (intmaxToUintmax ActualValueIn &&& intmaxToUintmax ReferenceValueIn
        = intmaxToUintmax ReferenceValueIn)
  | .BITMASK_SET, false =>
      decide (intmaxLand ActualValueIn ReferenceValueIn = ReferenceValueIn)
  | .BITMASK_UNSET, true =>
      decide (intmaxToUintmax ActualValueIn &&& intmaxToUintmax ReferenceValueIn = 0)
  | .BITMASK_UNSET, false =>
      decide (intmaxLand ActualValueIn ReferenceValueIn = 0)
  | _, _ => false

/-- Lowercase digit character, as printf renders octal/decimal/hex
digits. -/
def printfDigitChar (d : Nat) : Char :=
  if d < 10 then Char.ofNat (48 + d) else Char.ofNat (87 + d)

/-- Digit expansion of `n` in base `b`, most significant digit first, no
leading zeros, empty for zero; the fuel argument bounds the number of
digits (66 suffices for any value below `2 ^ 64` in any base of at least
2). -/
def printfDigitsAux (b : Nat) : Nat → Nat → List Char
  | 0, _ => []
  | fuel + 1, n => if n = 0 then [] else printfDigitsAux b fuel (n / b) ++ [printfDigitChar (n % b)]

/-- Rendering of an unsigned value in base `b` as printf does: "0" for
zero, otherwise the digits without leading zeros. -/
def printfDigits (b n : Nat) : List Char :=
  if n = 0 then ['0'] else printfDigitsAux b 66 n

/-- Rendering of a signed value in base 10 as printf `%ld` does. -/
def printfSignedDec (v : Int) : List Char :=
  if v < 0 then '-' :: printfDigits 10 (-v).toNat else printfDigits 10 v.toNat

/-- UtAssert_GetValueText of utassert.c.  Boolean radix renders "true" /
"false"; octal and hex render the `(unsigned long)` cast of the value
with a "0" / "0x" prefix; otherwise unsigned values render as `%lu` of
the cast and signed values as `%ld`.  snprintf bounds the text to
`TempSz - 1` characters. -/
def UtAssert_GetValueText (TempSz : Nat) (InValue : Int) (IsUnsigned : Bool)
    (RadixType : UtAssert_Radix_t) : List Char :=
  (if RadixType = .BOOLEAN then
    (if InValue ≠ 0 then "true".toList else "false".toList)
  else if RadixType = .OCTAL then
    '0' :: printfDigits 8 (intmaxToUintmax InValue)
  else if RadixType = .HEX then
    "0x".toList ++ printfDigits 16 (intmaxToUintmax InValue)
  else if IsUnsigned then
    printfDigits 10 (intmaxToUintmax InValue)
  else
    printfSignedDec InValue).take (TempSz - 1)

/-- UtAssert_GetOpText of utassert.c: symbolic operator text, "??" for
unsupported kinds. -/
def UtAssert_GetOpText (CompareType : UtAssert_Compare_t) : List Char :=
  match CompareType with
  | .EQ => "==".toList
  | .NEQ => "!=".toList
  | .LT => "<".toList
  | .GT => ">".toList
  | .LTEQ => "<=".toList
  | .GTEQ => ">=".toList
  | .BITMASK_SET => "&".toList
  | .BITMASK_UNSET => "&~".toList
  | _ => "??".toList

/-- The C `isspace` predicate on the ASCII characters that can appear
here: space, tab, newline, vertical tab, form feed, carriage return. -/
def cIsSpace (c : Char) : Bool :=
  c = ' ' || c = '\t' || c = '\n' || c = Char.ofNat 11 || c = Char.ofNat 12 || c = '\r'

/-- The trailing-trim loop of UtAssert_GenericIntegerCompare:
`while (TagLen > 0 && (isspace(TagStr[TagLen - 1]) || TagStr[TagLen - 1] == ':')) --TagLen`.
Given the buffer contents and the current length, returns the length
after trimming trailing whitespace and colons. -/
def tagTrimLen (s : List Char) : Nat → Nat
  | 0 => 0
  | n + 1 =>
    if cIsSpace (s.getD n ' ') || s.getD n ' ' = ':' then tagTrimLen s n else n + 1

/-- The TagStr construction of UtAssert_GenericIntegerCompare: for a
nonempty type name, snprintf copies it into a 32-byte buffer and returns
its length, the length is clamped to 29 (`sizeof(TagStr) - 3`), trailing
whitespace and colons are trimmed, and when anything remains a ": " is
appended. -/
def buildTagStr (Typename : List Char) : List Char :=
  if Typename = [] then []
  else
    let TagLen := tagTrimLen Typename (min Typename.length 29)
    if 0 < TagLen then Typename.take TagLen ++ [':', ' '] else []

/-- Operand-label prefix stripping of UtAssert_GenericIntegerCompare:
`strncmp(Text, "UTASSERT_", 9) == 0` drops the first nine characters. -/
def utStripLabel (Text : List Char) : List Char :=
  if Text.take 9 = "UTASSERT_".toList then Text.drop 9 else Text

/-- The radix adjustment of UtAssert_GenericIntegerCompare: a nonempty
type name that contains an asterisk turns an unspecified radix into
hex. -/
def utEffRadix (Typename : List Char) (RadixType : UtAssert_Radix_t) : UtAssert_Radix_t :=
  if Typename ≠ [] ∧ RadixType = .DEFAULT ∧ '*' ∈ Typename then .HEX else RadixType

/-- The message expansion of UtAssert_GenericIntegerCompare: the snprintf
format `"%s%s (%s) %s %s (%s)"` applied to the tag string, the stripped
actual text, the actual value text, the operator text, the stripped
reference text and the reference value text (value texts through 32-byte
buffers). -/
def UtAssert_GenericIntegerCompare_FinalMsg (IsUnsigned : Bool) (ActualValue : Int)
    (CompareType : UtAssert_Compare_t) (RefValue : Int) (RadixType : UtAssert_Radix_t)
    (Typename ActualText RefText : List Char) : List Char :=
  let rad := utEffRadix Typename RadixType
  buildTagStr Typename ++ utStripLabel ActualText ++ " (".toList
    ++ UtAssert_GetValueText 32 ActualValue IsUnsigned rad ++ ") ".toList
    ++ UtAssert_GetOpText CompareType ++ [' '] ++ utStripLabel RefText ++ " (".toList
    ++ UtAssert_GetValueText 32 RefValue IsUnsigned rad ++ [')']

/-- UtAssert_GenericIntegerCompare of utassert.c: records the
UtAssert_DoCompare outcome through UtAssertEx with the FAILURE case type
and the generated message. -/
def UtAssert_GenericIntegerCompare (IsUnsigned : Bool) (ActualValue : Int)
    (CompareType : UtAssert_Compare_t) (RefValue : Int) (File : List Char) (Line : Nat)
    (RadixType : UtAssert_Radix_t) (Typename ActualText RefText : List Char)
    (s : UtState) : (Bool × UtState) × List UtEvent :=
  UtAssertEx (UtAssert_DoCompare ActualValue CompareType RefValue IsUnsigned)
    UTASSERT_CASETYPE_FAILURE File Line
    (UtAssert_GenericIntegerCompare_FinalMsg IsUnsigned ActualValue CompareType RefValue
      RadixType Typename ActualText RefText) s

/-- The max-length sentinel meaning "string is null terminated"
(UTASSERT_STRINGBUF_NULL_TERM).  Modelled from the spec: the sentinel is
the value callers pass when "the max size is not known", documented in
the repository header as the SIZE_MAX constant, hence `2 ^ 64 - 1`. -/
def UTASSERT_STRINGBUF_NULL_TERM : Nat := 2 ^ 64 - 1

/-- C `strlen` on a byte buffer: index of the first zero byte (the whole
buffer length if it contains none, in which case the C call would read
past the buffer). -/
def cstrlen : List Nat → Nat
  | [] => 0
  | b :: rest => if b = 0 then 0 else cstrlen rest + 1

/-- C `memchr(buf, c, n)`: index of the first occurrence of byte `c`
among the first `n` bytes, `none` when there is none within the buffer
and the bound. -/
def memchrIdx : List Nat → Nat → Nat → Option Nat
  | _, _, 0 => none
  | [], _, _ + 1 => none
  | b :: rest, c, n + 1 =>
    if b = c then some 0 else (memchrIdx rest c n).map (· + 1)

/-- C `memcmp(s1, s2, n)` on byte buffers, as a signed result: the
difference of the first differing byte pair among the first `n` bytes,
zero when they all agree. -/
def utMemcmp : List Nat → List Nat → Nat → Int
  | _, _, 0 => 0
  | [], _, _ + 1 => 0
  | _ :: _, [], _ + 1 => 0
  | a :: as, b :: bs, n + 1 =>
    if a = b then utMemcmp as bs n else (a : Int) - (b : Int)

/-- The comparison-length determination of UtAssert_StringBufCompare for
one string operand: a null string keeps `EndPtr = NULL`, the
null-terminated sentinel takes `strlen`, otherwise the first null byte
within the bound; a null `EndPtr` (null string, or no null byte found)
falls back to the max-length argument itself. -/
def UtAssert_StrFormatLen (Str : Option (List Nat)) (StrMax : Nat) : Nat :=
  match Str with
  | none => StrMax
  | some bytes =>
    if StrMax = UTASSERT_STRINGBUF_NULL_TERM then cstrlen bytes
    else
      match memchrIdx bytes 0 StrMax with
      | some i => i
      | none => StrMax

/-- The `Compare` value of UtAssert_StringBufCompare (for non-null
strings): two zero-length strings give 0; otherwise memcmp over the
shorter effective length, with the length difference breaking a tie when
the compared prefixes agree. -/
def UtAssert_StringBufCompare_cmp (String1 : List Nat) (String1Max : Nat)
    (String2 : List Nat) (String2Max : Nat) : Int :=
  let FormatLen1 := UtAssert_StrFormatLen (some String1) String1Max
  let FormatLen2 := UtAssert_StrFormatLen (some String2) String2Max
  if FormatLen1 = 0 ∧ FormatLen2 = 0 then 0
  else
    let c : Int :=
      if FormatLen1 < FormatLen2 then utMemcmp String1 String2 FormatLen1
      else utMemcmp String1 String2 FormatLen2
    if c = 0 then (FormatLen1 : Int) - (FormatLen2 : Int) else c

/-- The comparison-result computation of UtAssert_StringBufCompare: the
switch turns the `Compare` value into a boolean per comparison kind,
unsupported kinds giving false. -/
def UtAssert_StringBufCompare_result (String1 : List Nat) (String1Max : Nat)
    (String2 : List Nat) (String2Max : Nat) (CompareType : UtAssert_Compare_t) : Bool :=
  let Compare : Int := UtAssert_StringBufCompare_cmp String1 String1Max String2 String2Max
  match CompareType with
  | .EQ => decide (Compare = 0)
  | .NEQ => decide (Compare ≠ 0)
  | .LT => decide (Compare < 0)
  | .GT => decide (Compare > 0)
  | .LTEQ => decide (Compare ≤ 0)
  | .GTEQ => decide (Compare ≥ 0)
  | _ => false

/-- The display scrub of UtAssert_StringBufCompare: the string is cut at
the first embedded newline within its effective length before being
copied into the scratch buffer. -/
def UtAssert_ScrubStr (bytes : List Nat) (FormatLen : Nat) : List Nat :=
  match memchrIdx bytes 10 FormatLen with
  | some i => bytes.take i
  | none => bytes.take FormatLen

/-- Byte buffer to character list, for embedding scrubbed bytes into the
report message. -/
def bytesToChars (bytes : List Nat) : List Char :=
  bytes.map Char.ofNat

/-- UtAssert_StringBufCompare of utassert.c, for non-null string
operands: computes both effective lengths, the comparison result, then
the newline-scrubbed display copies, and records the result through
UtAssertEx with the FAILURE case type and the message
`String: '<scrubbed1>' == '<scrubbed2>'`. -/
def UtAssert_StringBufCompare (String1 : List Nat) (String1Max : Nat) (String2 : List Nat)
    (String2Max : Nat) (CompareType : UtAssert_Compare_t) (File : List Char) (Line : Nat)
    (s : UtState) : (Bool × UtState) × List UtEvent :=
  let FormatLen1 := UtAssert_StrFormatLen (some String1) String1Max
  let FormatLen2 := UtAssert_StrFormatLen (some String2) String2Max
  let Result := UtAssert_StringBufCompare_result String1 String1Max String2 String2Max CompareType
  let Scrubbed1 := UtAssert_ScrubStr String1 FormatLen1
  let Scrubbed2 := UtAssert_ScrubStr String2 FormatLen2
  UtAssertEx Result UTASSERT_CASETYPE_FAILURE File Line
    ("String: ".toList ++ [Char.ofNat 39] ++ bytesToChars Scrubbed1 ++ [Char.ofNat 39]
      ++ " == ".toList ++ [Char.ofNat 39] ++ bytesToChars Scrubbed2 ++ [Char.ofNat 39]) s

/-- Byte-list view of a string literal, for stating concrete examples. -/
def strBytes (s : String) : List Nat :=
  s.toList.map Char.toNat

/-- Trailing-trim as the spec describes it: drop trailing whitespace and
colon characters (stated via reverse and dropWhile, independently of the
index-based loop of the source). -/
def specTrimTag (s : List Char) : List Char :=
  (s.reverse.dropWhile (fun c => cIsSpace c || c = ':')).reverse

/-- Tag prefix as the (amended) spec describes it: an empty type tag
gives no prefix; otherwise the first 29 characters of the tag are
trimmed of trailing whitespace and colons, and when anything remains a
": " is appended. -/
def specTagStr (Typename : List Char) : List Char :=
  if Typename = [] then []
  else
    let u := specTrimTag (Typename.take 29)
    if u = [] then [] else u ++ [':', ' ']

/-- Operand-label prefix stripping as the spec describes it: a label
beginning with the prefix "UTASSERT_" is displayed with that prefix
stripped. -/
def specStripLabel (Text : List Char) : List Char :=
  if "UTASSERT_".toList.isPrefixOf Text then Text.drop 9 else Text

theorem caseSumAux_congr (f g : Nat → Nat) (n : Nat) (h : ∀ j, j < n → f j = g j) :
    caseSumAux f n = caseSumAux g n := by
  induction n with
  | zero => rfl
  | succ n ih =>
    simp only [caseSumAux]
    rw [ih (fun j hj => h j (Nat.lt_succ_of_lt hj)), h n (Nat.lt_succ_self n)]

theorem caseSumAux_update (f : Nat → Nat) (i n : Nat) (h : i < n) :
    caseSumAux (Function.update f i (f i + 1)) n = caseSumAux f n + 1 := by
  induction n with
  | zero => omega
  | succ n ih =>
    by_cases hi : i = n
    · subst hi
      have hc : caseSumAux (Function.update f i (f i + 1)) i = caseSumAux f i :=
        caseSumAux_congr _ _ _ (fun j hj => Function.update_noteq (by omega) _ _)
      simp only [caseSumAux, hc, Function.update_same]
      omega
    · have hin : i < n := by omega
      simp only [caseSumAux, ih hin, Function.update_noteq (Ne.symm hi)]
      omega

theorem caseSumAux_add (f g : Nat → Nat) (n : Nat) :
    caseSumAux (fun j => f j + g j) n = caseSumAux f n + caseSumAux g n := by
  induction n with
  | zero => rfl
  | succ n ih =>
    simp only [caseSumAux, ih]
    omega

theorem UtCounterSum_fold (t s : UtAssert_TestCounter_t) :
    caseSumAux (foldCounts t.CaseCount s.CaseCount) UTASSERT_CASETYPE_MAX
      = UtCounterSum t + UtCounterSum s := by
  have hc : caseSumAux (foldCounts t.CaseCount s.CaseCount) UTASSERT_CASETYPE_MAX
      = caseSumAux (fun j => t.CaseCount j + s.CaseCount j) UTASSERT_CASETYPE_MAX :=
    caseSumAux_congr _ _ _ (fun j hj => by simp [foldCounts, hj])
  rw [hc, caseSumAux_add]
  rfl

theorem UtStep_counterOK (s : UtState) (op : UtOp) (hop : UtOpCovered op = true)
    (h1 : UtCounterOK s.UT_SegmentCounters) (h2 : UtCounterOK s.UT_TotalCounters) :
    UtCounterOK (UtStep s op).UT_SegmentCounters ∧ UtCounterOK (UtStep s op).UT_TotalCounters := by
  cases op with
  | assertCase e ct f ln m =>
    have hct : (if e then UTASSERT_CASETYPE_PASS else ct) < UTASSERT_CASETYPE_MAX := by
      cases e
      · simpa [UtOpCovered, UTASSERT_CASETYPE_MAX] using hop
      · simp [UTASSERT_CASETYPE_PASS, UTASSERT_CASETYPE_MAX]
    refine ⟨?_, h2⟩
    show _ = _
    simp only [UtStep, UtAssertEx, if_pos hct, UtCounterSum]
    rw [caseSumAux_update _ _ _ hct]
    rw [h1]
    rfl
  | beginTest n =>
    refine ⟨?_, h2⟩
    show (0 : Nat) = _
    rfl
  | endTest =>
    by_cases hv : 0 < s.UT_SegmentCounters.TotalTestCases
    · have hseg : (UtStep s UtOp.endTest).UT_SegmentCounters = zeroCounter := by
        simp [UtStep, UtAssert_EndTest, hv]
      have htot : (UtStep s UtOp.endTest).UT_TotalCounters.TotalTestCases
          = s.UT_TotalCounters.TotalTestCases + s.UT_SegmentCounters.TotalTestCases := by
        simp [UtStep, UtAssert_EndTest, hv]
      have hcc : (UtStep s UtOp.endTest).UT_TotalCounters.CaseCount
          = foldCounts s.UT_TotalCounters.CaseCount s.UT_SegmentCounters.CaseCount := by
        simp [UtStep, UtAssert_EndTest, hv]
      constructor
      · rw [hseg]
        rfl
      · show _ = UtCounterSum _
        unfold UtCounterSum
        rw [htot, hcc, UtCounterSum_fold, ← h1, ← h2]
    · have hseg : (UtStep s UtOp.endTest).UT_SegmentCounters = zeroCounter := by
        simp [UtStep, UtAssert_EndTest, hv]
      have htot : (UtStep s UtOp.endTest).UT_TotalCounters = s.UT_TotalCounters := by
        simp [UtStep, UtAssert_EndTest, hv]
      constructor
      · rw [hseg]
        rfl
      · show _ = UtCounterSum _
        rw [htot]
        exact h2

theorem UtRun_counterOK (ops : List UtOp) : ∀ (s : UtState),
    (∀ op ∈ ops, UtOpCovered op = true) →
    UtCounterOK s.UT_SegmentCounters → UtCounterOK s.UT_TotalCounters →
    UtCounterOK (UtRun ops s).UT_SegmentCounters ∧ UtCounterOK (UtRun ops s).UT_TotalCounters := by
  induction ops with
  | nil => exact fun s _ h1 h2 => ⟨h1, h2⟩
  | cons op ops ih =>
    intro s hall h1 h2
    have hstep := UtStep_counterOK s op (hall op (by simp)) h1 h2
    have : UtRun (op :: ops) s = UtRun ops (UtStep s op) := rfl
    rw [this]
    exact ih (UtStep s op) (fun o ho => hall o (by simp [ho])) hstep.1 hstep.2

/-- C1 (amended): for every sequence of recorded operations in which each
recorded case either passes (and is hence reclassified to PASS) or
carries a classification within the valid range, the total-case count of
the segment aggregate and of the cumulative aggregate each equal the sum
of the aggregate's per-classification counts. -/
theorem utassert_C1_total_is_sum (ops : List UtOp)
    (h : ∀ op ∈ ops, UtOpCovered op = true) :
    UtCounterOK (UtRun ops initUtState).UT_SegmentCounters ∧
    UtCounterOK (UtRun ops initUtState).UT_TotalCounters :=
  UtRun_counterOK ops initUtState h rfl rfl

/-- C1 witness: a concrete covered trace (a passing case with an
out-of-range supplied classification, a failing FAILURE case, and a
segment end) satisfies the invariant. -/
theorem utassert_C1_witness :
    (∀ op ∈ [UtOp.assertCase true 999 [] 0 [], UtOp.assertCase false 2 [] 0 [], UtOp.endTest],
      UtOpCovered op = true) ∧
    (UtCounterOK (UtRun [UtOp.assertCase true 999 [] 0 [], UtOp.assertCase false 2 [] 0 [],
        UtOp.endTest] initUtState).UT_SegmentCounters ∧
      UtCounterOK (UtRun [UtOp.assertCase true 999 [] 0 [], UtOp.assertCase false 2 [] 0 [],
        UtOp.endTest] initUtState).UT_TotalCounters) :=
  ⟨by decide, utassert_C1_total_is_sum _ (by decide)⟩

/-- C1 counterexample: a single recorded case with a false expression and
the out-of-range classification UTASSERT_CASETYPE_MAX increments the
segment total-case count but no per-classification count, so the
total-case count differs from the sum of the per-classification
counts. -/
theorem utassert_C1_cex :
    ¬ UtCounterOK (UtRun [UtOp.assertCase false UTASSERT_CASETYPE_MAX [] 0 []]
      initUtState).UT_SegmentCounters := by
  decide

/-- C2: a call to UtAssertEx with a true expression is counted under PASS
regardless of the supplied case type: the segment PASS count increments,
and every per-classification count other than PASS (in particular the
supplied classification's, when it differs from PASS) is unchanged. -/
theorem utassert_C2_pass_reclassified (s : UtState) (CaseType : Nat) (File : List Char)
    (Line : Nat) (Msg : List Char) :
    (((UtAssertEx true CaseType File Line Msg s).1).2).UT_SegmentCounters.CaseCount
        UTASSERT_CASETYPE_PASS
      = s.UT_SegmentCounters.CaseCount UTASSERT_CASETYPE_PASS + 1 ∧
    ∀ i, i ≠ UTASSERT_CASETYPE_PASS →
      (((UtAssertEx true CaseType File Line Msg s).1).2).UT_SegmentCounters.CaseCount i
        = s.UT_SegmentCounters.CaseCount i := by
  constructor
  · simp [UtAssertEx, UTASSERT_CASETYPE_PASS, UTASSERT_CASETYPE_MAX]
  · intro i hi
    have hi11 : i ≠ 11 := hi
    simp [UtAssertEx, UTASSERT_CASETYPE_PASS, UTASSERT_CASETYPE_MAX,
      Function.update_noteq hi11]

/-- C2 witness: recording a passing case supplied as FAILURE increments
the PASS count and leaves the FAILURE count unchanged. -/
theorem utassert_C2_witness :
    ((((UtAssertEx true UTASSERT_CASETYPE_FAILURE [] 0 [] initUtState).1).2).UT_SegmentCounters.CaseCount
        UTASSERT_CASETYPE_PASS
      = initUtState.UT_SegmentCounters.CaseCount UTASSERT_CASETYPE_PASS + 1) ∧
    (UTASSERT_CASETYPE_FAILURE ≠ UTASSERT_CASETYPE_PASS ∧
      (((UtAssertEx true UTASSERT_CASETYPE_FAILURE [] 0 [] initUtState).1).2).UT_SegmentCounters.CaseCount
          UTASSERT_CASETYPE_FAILURE
        = initUtState.UT_SegmentCounters.CaseCount UTASSERT_CASETYPE_FAILURE) :=
  ⟨(utassert_C2_pass_reclassified initUtState UTASSERT_CASETYPE_FAILURE [] 0 []).1,
    by decide,
    (utassert_C2_pass_reclassified initUtState UTASSERT_CASETYPE_FAILURE [] 0 []).2
      UTASSERT_CASETYPE_FAILURE (by decide)⟩

/-- C3: UtAssert_BeginTest immediately followed by UtAssert_EndTest with
no case recorded in between leaves the cumulative aggregate (segment
counter and all counts) unchanged, clears the segment aggregate, and
emits the "No test cases" text instead of a segment summary report. -/
theorem utassert_C3_empty_segment (s : UtState) (name : List Char) :
    (UtAssert_EndTest (UtAssert_BeginTest name s).1).1.UT_TotalCounters = s.UT_TotalCounters ∧
    (UtAssert_EndTest (UtAssert_BeginTest name s).1).1.UT_SegmentCounters = zeroCounter ∧
    (UtAssert_EndTest (UtAssert_BeginTest name s).1).2
      = [UtEvent.BspText UTASSERT_CASETYPE_END ("No test cases\n".toList)] := by
  refine ⟨?_, ?_, ?_⟩ <;>
    simp [UtAssert_BeginTest, UtAssert_EndTest, zeroCounter]

/-- C4: a segment holding exactly one failing FAILURE case advances the
cumulative segment counter by one, the cumulative FAILURE count by one
and the cumulative total-case count by one, and every other
per-classification cumulative count is unchanged (the whole segment
aggregate is folded in). -/
theorem utassert_C4_single_failing (s : UtState) (name File Msg : List Char) (Line : Nat) :
    (UtRun [UtOp.beginTest name, UtOp.assertCase false UTASSERT_CASETYPE_FAILURE File Line Msg,
        UtOp.endTest] s).UT_TotalCounters.TestSegmentCount
      = s.UT_TotalCounters.TestSegmentCount + 1 ∧
    (UtRun [UtOp.beginTest name, UtOp.assertCase false UTASSERT_CASETYPE_FAILURE File Line Msg,
        UtOp.endTest] s).UT_TotalCounters.CaseCount UTASSERT_CASETYPE_FAILURE
      = s.UT_TotalCounters.CaseCount UTASSERT_CASETYPE_FAILURE + 1 ∧
    (UtRun [UtOp.beginTest name, UtOp.assertCase false UTASSERT_CASETYPE_FAILURE File Line Msg,
        UtOp.endTest] s).UT_TotalCounters.TotalTestCases
      = s.UT_TotalCounters.TotalTestCases + 1 ∧
    ∀ i, i ≠ UTASSERT_CASETYPE_FAILURE →
      (UtRun [UtOp.beginTest name, UtOp.assertCase false UTASSERT_CASETYPE_FAILURE File Line Msg,
          UtOp.endTest] s).UT_TotalCounters.CaseCount i
        = s.UT_TotalCounters.CaseCount i := by
  refine ⟨?_, ?_, ?_, ?_⟩
  · simp [UtRun, UtStep, UtAssert_BeginTest, UtAssertEx, UtAssert_EndTest, zeroCounter,
      UTASSERT_CASETYPE_FAILURE, UTASSERT_CASETYPE_MAX]
  · simp [UtRun, UtStep, UtAssert_BeginTest, UtAssertEx, UtAssert_EndTest, zeroCounter,
      UTASSERT_CASETYPE_FAILURE, UTASSERT_CASETYPE_MAX, foldCounts]
  · simp [UtRun, UtStep, UtAssert_BeginTest, UtAssertEx, UtAssert_EndTest, zeroCounter,
      UTASSERT_CASETYPE_FAILURE, UTASSERT_CASETYPE_MAX]
  · intro i hi
    have hi2 : i ≠ 2 := hi
    simp [UtRun, UtStep, UtAssert_BeginTest, UtAssertEx, UtAssert_EndTest, zeroCounter,
      UTASSERT_CASETYPE_FAILURE, UTASSERT_CASETYPE_MAX, foldCounts,
      Function.update_noteq hi2]

/-- C4 witness: the composite applied at the initial state, checked at
the non-FAILURE classification PASS. -/
theorem utassert_C4_witness :
    ((UtRun [UtOp.beginTest [], UtOp.assertCase false UTASSERT_CASETYPE_FAILURE [] 0 [],
        UtOp.endTest] initUtState).UT_TotalCounters.TestSegmentCount
      = initUtState.UT_TotalCounters.TestSegmentCount + 1) ∧
    (UTASSERT_CASETYPE_PASS ≠ UTASSERT_CASETYPE_FAILURE ∧
      (UtRun [UtOp.beginTest [], UtOp.assertCase false UTASSERT_CASETYPE_FAILURE [] 0 [],
          UtOp.endTest] initUtState).UT_TotalCounters.CaseCount UTASSERT_CASETYPE_PASS
        = initUtState.UT_TotalCounters.CaseCount UTASSERT_CASETYPE_PASS) :=
  ⟨(utassert_C4_single_failing initUtState [] [] [] 0).1,
    by decide,
    (utassert_C4_single_failing initUtState [] [] [] 0).2.2.2 UTASSERT_CASETYPE_PASS (by decide)⟩

/-- C10: recording a case through UtAssertEx leaves the cumulative
aggregate entirely unchanged, so UtAssert_GetPassCount and
UtAssert_GetFailCount are unchanged; only after UtAssert_EndTest folds
the segment does the pass count reflect a passing case just recorded. -/
theorem utassert_C10_cumulative_frame (s : UtState) (e : Bool) (ct : Nat)
    (File Msg : List Char) (Line : Nat) :
    (((UtAssertEx e ct File Line Msg s).1).2).UT_TotalCounters = s.UT_TotalCounters ∧
    UtAssert_GetPassCount (((UtAssertEx e ct File Line Msg s).1).2) = UtAssert_GetPassCount s ∧
    UtAssert_GetFailCount (((UtAssertEx e ct File Line Msg s).1).2) = UtAssert_GetFailCount s ∧
    UtAssert_GetPassCount ((UtAssert_EndTest (((UtAssertEx true ct File Line Msg s).1).2)).1)
      = UtAssert_GetPassCount s + s.UT_SegmentCounters.CaseCount UTASSERT_CASETYPE_PASS + 1 := by
  refine ⟨rfl, rfl, rfl, ?_⟩
  simp [UtAssertEx, UtAssert_EndTest, UtAssert_GetPassCount, foldCounts,
    UTASSERT_CASETYPE_PASS, UTASSERT_CASETYPE_MAX]
  omega

theorem intmaxToUintmax_lt (v : Int) : intmaxToUintmax v < 2 ^ 64 := by
  unfold intmaxToUintmax
  omega

theorem uintmaxToIntmax_intmaxToUintmax (v : Int) (h1 : -(2 ^ 63) ≤ v) (h2 : v < 2 ^ 63) :
    uintmaxToIntmax (intmaxToUintmax v) = v := by
  unfold uintmaxToIntmax intmaxToUintmax
  split <;> omega

theorem intmaxToUintmax_uintmaxToIntmax (p : Nat) (h : p < 2 ^ 64) :
    intmaxToUintmax (uintmaxToIntmax p) = p := by
  unfold uintmaxToIntmax intmaxToUintmax
  split <;> omega

theorem land_eq_right_iff (a r : Nat) :
    a &&& r = r ↔ ∀ i, r.testBit i = true → a.testBit i = true := by
  constructor
  · intro h i hr
    have ht : (a &&& r).testBit i = r.testBit i := by rw [h]
    rw [Nat.testBit_and, hr, Bool.and_true] at ht
    exact ht
  · intro h
    apply Nat.eq_of_testBit_eq
    intro i
    rw [Nat.testBit_and]
    cases hr : r.testBit i
    · simp
    · simp [h i hr]

theorem land_eq_zero_iff (a r : Nat) :
    a &&& r = 0 ↔ ∀ i, ¬(a.testBit i = true ∧ r.testBit i = true) := by
  constructor
  · intro h i hc
    have ht : (a &&& r).testBit i = Nat.testBit 0 i := by rw [h]
    rw [Nat.testBit_and, hc.1, hc.2, Nat.zero_testBit] at ht
    simp at ht
  · intro h
    apply Nat.eq_of_testBit_eq
    intro i
    rw [Nat.testBit_and, Nat.zero_testBit]
    cases ha : a.testBit i
    · simp
    · cases hr : r.testBit i
      · simp
      · exact absurd ⟨ha, hr⟩ (h i)

theorem land_lt_two_pow_64 (a b : Nat) (ha : a < 2 ^ 64) : a &&& b < 2 ^ 64 := by
  apply Nat.lt_pow_two_of_testBit
  intro i hi
  rw [Nat.testBit_and, Nat.testBit_lt_two_pow (Nat.lt_of_lt_of_le ha (Nat.pow_le_pow_right (by omega) hi)), Bool.false_and]

theorem intmaxLand_eq_iff (a r : Int) (h1 : -(2 ^ 63) ≤ r) (h2 : r < 2 ^ 63) :
    intmaxLand a r = r ↔ intmaxToUintmax a &&& intmaxToUintmax r = intmaxToUintmax r := by
  unfold intmaxLand
  constructor
  · intro h
    have := congrArg intmaxToUintmax h
    rwa [intmaxToUintmax_uintmaxToIntmax _
      (land_lt_two_pow_64 _ _ (intmaxToUintmax_lt a))] at this
  · intro h
    rw [h, uintmaxToIntmax_intmaxToUintmax r h1 h2]

theorem intmaxLand_eq_zero_iff (a r : Int) :
    intmaxLand a r = 0 ↔ intmaxToUintmax a &&& intmaxToUintmax r = 0 := by
  unfold intmaxLand
  constructor
  · intro h
    have := congrArg intmaxToUintmax h
    rw [intmaxToUintmax_uintmaxToIntmax _
      (land_lt_two_pow_64 _ _ (intmaxToUintmax_lt a))] at this
    simpa [intmaxToUintmax] using this
  · intro h
    rw [h]
    rfl

/-- C5: UtAssert_DoCompare implements the six relational kinds under the
chosen signed or unsigned interpretation; bitmask-set holds exactly when
every reference bit is present in the actual value and bitmask-unset
exactly when no reference bit is present; the signed bitmask kinds agree
with the unsigned ones on machine-representable values; the NONE and MAX
sentinels always yield false; and the spec's concrete examples hold. -/
theorem utassert_C5_docompare :
    (∀ a r : Int,
      (UtAssert_DoCompare a .EQ r false = true ↔ a = r) ∧
      (UtAssert_DoCompare a .NEQ r false = true ↔ a ≠ r) ∧
      (UtAssert_DoCompare a .LT r false = true ↔ a < r) ∧
      (UtAssert_DoCompare a .GT r false = true ↔ a > r) ∧
      (UtAssert_DoCompare a .LTEQ r false = true ↔ a ≤ r) ∧
      (UtAssert_DoCompare a .GTEQ r false = true ↔ a ≥ r)) ∧
    (∀ a r : Int,
      (UtAssert_DoCompare a .EQ r true = true ↔ intmaxToUintmax a = intmaxToUintmax r) ∧
      (UtAssert_DoCompare a .NEQ r true = true ↔ intmaxToUintmax a ≠ intmaxToUintmax r) ∧
      (UtAssert_DoCompare a .LT r true = true ↔ intmaxToUintmax a < intmaxToUintmax r) ∧
      (UtAssert_DoCompare a .GT r true = true ↔ intmaxToUintmax a > intmaxToUintmax r) ∧
      (UtAssert_DoCompare a .LTEQ r true = true ↔ intmaxToUintmax a ≤ intmaxToUintmax r) ∧
      (UtAssert_DoCompare a .GTEQ r true = true ↔ intmaxToUintmax a ≥ intmaxToUintmax r)) ∧
    (∀ a r : Int,
      (UtAssert_DoCompare a .BITMASK_SET r true = true ↔
        ∀ i, (intmaxToUintmax r).testBit i = true → (intmaxToUintmax a).testBit i = true) ∧
      (UtAssert_DoCompare a .BITMASK_UNSET r true = true ↔
        ∀ i, ¬((intmaxToUintmax a).testBit i = true ∧ (intmaxToUintmax r).testBit i = true))) ∧
    (∀ (a r : Int) (u : Bool),
      UtAssert_DoCompare a .NONE r u = false ∧ UtAssert_DoCompare a .MAX r u = false) ∧
    (UtAssert_DoCompare 5 .EQ 5 true = true ∧ UtAssert_DoCompare 5 .LT 6 false = true ∧
      UtAssert_DoCompare 6 .BITMASK_SET 4 true = true ∧
      UtAssert_DoCompare 6 .BITMASK_UNSET 1 true = true) ∧
    (∀ a r : Int, -(2 ^ 63) ≤ a → a < 2 ^ 63 → -(2 ^ 63) ≤ r → r < 2 ^ 63 →
      (UtAssert_DoCompare a .BITMASK_SET r false = UtAssert_DoCompare a .BITMASK_SET r true ∧
        UtAssert_DoCompare a .BITMASK_UNSET r false
          = UtAssert_DoCompare a .BITMASK_UNSET r true)) := by
  refine ⟨?_, ?_, ?_, ?_, ?_, ?_⟩
  · intro a r
    refine ⟨?_, ?_, ?_, ?_, ?_, ?_⟩ <;> simp [UtAssert_DoCompare]
  · intro a r
    refine ⟨?_, ?_, ?_, ?_, ?_, ?_⟩ <;> simp [UtAssert_DoCompare]
  · intro a r
    constructor
    · simp [UtAssert_DoCompare, land_eq_right_iff]
    · simp [UtAssert_DoCompare, land_eq_zero_iff]
  · intro a r u
    cases u <;> exact ⟨rfl, rfl⟩
  · refine ⟨by decide, by decide, by decide, by decide⟩
  · intro a r ha1 ha2 hr1 hr2
    constructor
    · simp [UtAssert_DoCompare, intmaxLand_eq_iff a r hr1 hr2]
    · simp [UtAssert_DoCompare, intmaxLand_eq_zero_iff a r]

/-- C5 witness: the signed bitmask kinds agree with the unsigned ones at
the machine-representable values 6 and 4. -/
theorem utassert_C5_witness :
    (-(2 ^ 63) ≤ (6 : Int) ∧ (6 : Int) < 2 ^ 63 ∧ -(2 ^ 63) ≤ (4 : Int) ∧ (4 : Int) < 2 ^ 63) ∧
    (UtAssert_DoCompare 6 .BITMASK_SET 4 false = UtAssert_DoCompare 6 .BITMASK_SET 4 true ∧
      UtAssert_DoCompare 6 .BITMASK_UNSET 4 false = UtAssert_DoCompare 6 .BITMASK_UNSET 4 true) :=
  ⟨⟨by decide, by decide, by decide, by decide⟩,
    utassert_C5_docompare.2.2.2.2.2 6 4 (by decide) (by decide) (by decide) (by decide)⟩

theorem printfDigitsAux_length_le (b : Nat) (_hb : 2 ≤ b) :
    ∀ (fuel n k : Nat), n < b ^ k → (printfDigitsAux b fuel n).length ≤ k := by
  intro fuel
  induction fuel with
  | zero =>
    intro n k _
    simp [printfDigitsAux]
  | succ fuel ih =>
    intro n k hn
    by_cases h0 : n = 0
    · simp [printfDigitsAux, h0]
    · cases k with
      | zero =>
        simp at hn
        omega
      | succ k =>
        have hdiv : n / b < b ^ k := by
          apply Nat.div_lt_of_lt_mul
          calc n < b ^ (k + 1) := hn
            _ = b * b ^ k := by ring
        have hrec := ih (n / b) k hdiv
        rw [show printfDigitsAux b (fuel + 1) n
            = printfDigitsAux b fuel (n / b) ++ [printfDigitChar (n % b)] from by
          simp [printfDigitsAux, h0]]
        rw [List.length_append]
        simp only [List.length_cons, List.length_nil]
        omega

theorem printfDigits_length_le (b n k : Nat) (hb : 2 ≤ b) (hk : 1 ≤ k) (hn : n < b ^ k) :
    (printfDigits b n).length ≤ k := by
  by_cases h0 : n = 0
  · subst h0
    rw [show printfDigits b 0 = ['0'] from rfl]
    simp only [List.length_cons, List.length_nil]
    omega
  · rw [show printfDigits b n = printfDigitsAux b 66 n from by simp [printfDigits, h0]]
    exact printfDigitsAux_length_le b hb 66 n k hn

/-- Value texts stay within the 31 characters of the 32-byte snprintf
buffer for any bit pattern (at most 22 octal digits for a 64-bit
value). -/
theorem hexText_short (n : Nat) (h : n < 2 ^ 64) :
    ("0x".toList ++ printfDigits 16 n).length ≤ 31 := by
  have : (printfDigits 16 n).length ≤ 16 :=
    printfDigits_length_le 16 n 16 (by omega) (by omega) (by omega)
  simp
  omega

theorem octText_short (n : Nat) (h : n < 2 ^ 64) :
    ('0' :: printfDigits 8 n).length ≤ 31 := by
  have : (printfDigits 8 n).length ≤ 22 :=
    printfDigits_length_le 8 n 22 (by omega) (by omega) (by omega)
  simp
  omega

theorem udecText_short (n : Nat) (h : n < 2 ^ 64) :
    (printfDigits 10 n).length ≤ 31 := by
  have : (printfDigits 10 n).length ≤ 20 :=
    printfDigits_length_le 10 n 20 (by omega) (by omega) (by omega)
  omega

theorem sdecText_short (v : Int) (h1 : -(2 ^ 63) ≤ v) (h2 : v < 2 ^ 63) :
    (printfSignedDec v).length ≤ 31 := by
  unfold printfSignedDec
  split
  · have : (printfDigits 10 (-v).toNat).length ≤ 19 :=
      printfDigits_length_le 10 (-v).toNat 19 (by omega) (by omega) (by omega)
    simp
    omega
  · have : (printfDigits 10 v.toNat).length ≤ 19 :=
      printfDigits_length_le 10 v.toNat 19 (by omega) (by omega) (by omega)
    omega

/-- C9: the value formatter renders boolean radix as "true" for nonzero
and "false" for zero, octal and hex radix as the unsigned reinterpretation
with the conventional "0" / "0x" prefix, default radix as unsigned
decimal when unsigned and (for machine-representable values) as signed
decimal when signed; the spec's concrete examples hold. -/
theorem utassert_C9_valuetext :
    (∀ (v : Int) (u : Bool),
      UtAssert_GetValueText 32 v u .BOOLEAN
        = (if v ≠ 0 then "true".toList else "false".toList)) ∧
    (∀ (v : Int) (u : Bool),
      UtAssert_GetValueText 32 v u .HEX = "0x".toList ++ printfDigits 16 (intmaxToUintmax v) ∧
      UtAssert_GetValueText 32 v u .OCTAL = '0' :: printfDigits 8 (intmaxToUintmax v) ∧
      UtAssert_GetValueText 32 v true .DEFAULT = printfDigits 10 (intmaxToUintmax v)) ∧
    (∀ v : Int, -(2 ^ 63) ≤ v → v < 2 ^ 63 →
      UtAssert_GetValueText 32 v false .DEFAULT = printfSignedDec v) ∧
    (UtAssert_GetValueText 32 255 true .HEX = "0xff".toList ∧
      UtAssert_GetValueText 32 8 true .OCTAL = "010".toList ∧
      UtAssert_GetValueText 32 1 true .BOOLEAN = "true".toList) := by
  refine ⟨?_, ?_, ?_, by decide, by decide, by decide⟩
  · intro v u
    by_cases h0 : v = 0 <;> simp [UtAssert_GetValueText, h0]
  · intro v u
    refine ⟨?_, ?_, ?_⟩
    · simp only [UtAssert_GetValueText]
      norm_num
      exact List.take_of_length_le (hexText_short _ (intmaxToUintmax_lt v))
    · simp only [UtAssert_GetValueText]
      norm_num
      exact List.take_of_length_le (octText_short _ (intmaxToUintmax_lt v))
    · simp only [UtAssert_GetValueText]
      norm_num
      exact List.take_of_length_le (udecText_short _ (intmaxToUintmax_lt v))
  · intro v h1 h2
    simp only [UtAssert_GetValueText]
    norm_num
    exact List.take_of_length_le (sdecText_short v h1 h2)

/-- C9 witness: the signed-decimal default-radix equation at the
machine-representable value -5. -/
theorem utassert_C9_witness :
    (-(2 ^ 63) ≤ (-5 : Int) ∧ (-5 : Int) < 2 ^ 63) ∧
    UtAssert_GetValueText 32 (-5) false .DEFAULT = printfSignedDec (-5) :=
  ⟨⟨by decide, by decide⟩, utassert_C9_valuetext.2.2.1 (-5) (by decide) (by decide)⟩

theorem utMemcmp_eq_zero_iff :
    ∀ (n : Nat) (s1 s2 : List Nat), n ≤ s1.length → n ≤ s2.length →
      (utMemcmp s1 s2 n = 0 ↔ s1.take n = s2.take n) := by
  intro n
  induction n with
  | zero =>
    intro s1 s2 _ _
    simp [utMemcmp]
  | succ n ih =>
    intro s1 s2 h1 h2
    cases s1 with
    | nil => simp at h1
    | cons a as =>
      cases s2 with
      | nil => simp at h2
      | cons b bs =>
        simp only [List.length_cons, Nat.succ_le_succ_iff] at h1 h2
        by_cases hab : a = b
        · subst hab
          simp only [utMemcmp, if_pos rfl, List.take_succ_cons, List.cons.injEq, true_and]
          exact ih as bs h1 h2
        · simp only [utMemcmp, if_neg hab, List.take_succ_cons, List.cons.injEq]
          constructor
          · intro h
            exfalso
            apply hab
            have : (a : Int) = (b : Int) := by omega
            exact_mod_cast this
          · intro h
            exact absurd h.1 hab

theorem stringBufCmp_min (s1 s2 : List Nat) (l1 l2 : Nat) :
    (if l1 < l2 then utMemcmp s1 s2 l1 else utMemcmp s1 s2 l2)
      = utMemcmp s1 s2 (min l1 l2) := by
  split
  · rw [Nat.min_eq_left (by omega)]
  · rw [Nat.min_eq_right (by omega)]

theorem stringBufCmp_eq_zero_iff (s1 s2 : List Nat) (m1 m2 : Nat)
    (h1 : UtAssert_StrFormatLen (some s1) m1 ≤ s1.length)
    (h2 : UtAssert_StrFormatLen (some s2) m2 ≤ s2.length) :
    UtAssert_StringBufCompare_cmp s1 m1 s2 m2 = 0 ↔
      s1.take (UtAssert_StrFormatLen (some s1) m1)
        = s2.take (UtAssert_StrFormatLen (some s2) m2) := by
  set l1 := UtAssert_StrFormatLen (some s1) m1 with hl1
  set l2 := UtAssert_StrFormatLen (some s2) m2 with hl2
  unfold UtAssert_StringBufCompare_cmp
  rw [← hl1, ← hl2]
  by_cases hz : l1 = 0 ∧ l2 = 0
  · simp [hz.1, hz.2]
  · rw [if_neg hz, stringBufCmp_min]
    have hminle1 : min l1 l2 ≤ s1.length := le_trans (Nat.min_le_left _ _) h1
    have hminle2 : min l1 l2 ≤ s2.length := le_trans (Nat.min_le_right _ _) h2
    by_cases hc : utMemcmp s1 s2 (min l1 l2) = 0
    · rw [if_pos hc]
      constructor
      · intro h
        have hll : l1 = l2 := by omega
        rw [hll]
        have hc2 : utMemcmp s1 s2 l2 = 0 := by
          rw [hll, Nat.min_self] at hc
          exact hc
        exact (utMemcmp_eq_zero_iff l2 s1 s2 (by omega) h2).1 hc2
      · intro h
        have hlen : l1 = l2 := by
          have hh := congrArg List.length h
          rw [List.length_take, List.length_take] at hh
          omega
        rw [hlen]
        omega
    · rw [if_neg hc]
      constructor
      · intro h
        exact absurd h hc
      · intro h
        exfalso
        apply hc
        apply (utMemcmp_eq_zero_iff (min l1 l2) s1 s2 hminle1 hminle2).2
        have hh := congrArg (List.take (min l1 l2)) h
        rw [List.take_take, List.take_take, Nat.min_eq_left (Nat.min_le_left l1 l2),
          Nat.min_eq_left (Nat.min_le_right l1 l2)] at hh
        exact hh

/-- C6: for non-null string buffers, two zero-length strings compare
equal; the EQ result holds exactly when the effective prefixes of the two
strings coincide (byte-for-byte up to the shorter length, with the length
difference breaking the tie); a string that is a proper prefix of a
longer one compares strictly less; the spec's concrete examples hold;
and the boolean result of the full function (which also newline-scrubs
the displayed text) is exactly the pre-scrub comparison result. -/
theorem utassert_C6_stringbufcompare :
    (∀ (s1 s2 : List Nat) (m1 m2 : Nat),
      UtAssert_StrFormatLen (some s1) m1 = 0 → UtAssert_StrFormatLen (some s2) m2 = 0 →
      UtAssert_StringBufCompare_result s1 m1 s2 m2 .EQ = true) ∧
    (∀ (s1 s2 : List Nat) (m1 m2 : Nat),
      UtAssert_StrFormatLen (some s1) m1 ≤ s1.length →
      UtAssert_StrFormatLen (some s2) m2 ≤ s2.length →
      (UtAssert_StringBufCompare_result s1 m1 s2 m2 .EQ = true ↔
        s1.take (UtAssert_StrFormatLen (some s1) m1)
          = s2.take (UtAssert_StrFormatLen (some s2) m2))) ∧
    (∀ (s1 s2 : List Nat) (m1 m2 : Nat),
      UtAssert_StrFormatLen (some s1) m1 ≤ s1.length →
      UtAssert_StrFormatLen (some s2) m2 ≤ s2.length →
      UtAssert_StrFormatLen (some s1) m1 < UtAssert_StrFormatLen (some s2) m2 →
      s1.take (UtAssert_StrFormatLen (some s1) m1)
        = s2.take (UtAssert_StrFormatLen (some s1) m1) →
      UtAssert_StringBufCompare_result s1 m1 s2 m2 .LT = true ∧
      UtAssert_StringBufCompare_result s1 m1 s2 m2 .EQ = false) ∧
    (UtAssert_StringBufCompare_result (strBytes "ab") 2 (strBytes "abc") 3 .EQ = false ∧
      UtAssert_StringBufCompare_result (strBytes "abc") UTASSERT_STRINGBUF_NULL_TERM
        (strBytes "abc") UTASSERT_STRINGBUF_NULL_TERM .EQ = true) ∧
    (∀ (s1 s2 : List Nat) (m1 m2 : Nat) (ct : UtAssert_Compare_t) (File : List Char)
        (Line : Nat) (st : UtState),
      ((UtAssert_StringBufCompare s1 m1 s2 m2 ct File Line st).1).1
        = UtAssert_StringBufCompare_result s1 m1 s2 m2 ct) := by
  refine ⟨?_, ?_, ?_, ⟨by decide, by decide⟩, ?_⟩
  · intro s1 s2 m1 m2 hz1 hz2
    simp [UtAssert_StringBufCompare_result, UtAssert_StringBufCompare_cmp, hz1, hz2]
  · intro s1 s2 m1 m2 h1 h2
    simp only [UtAssert_StringBufCompare_result, decide_eq_true_eq]
    exact stringBufCmp_eq_zero_iff s1 s2 m1 m2 h1 h2
  · intro s1 s2 m1 m2 h1 h2 hlt hpre
    have hcmp : UtAssert_StringBufCompare_cmp s1 m1 s2 m2
        = (UtAssert_StrFormatLen (some s1) m1 : Int)
          - (UtAssert_StrFormatLen (some s2) m2 : Int) := by
      unfold UtAssert_StringBufCompare_cmp
      rw [if_neg (by omega), stringBufCmp_min]
      rw [Nat.min_eq_left (by omega)]
      rw [if_pos ((utMemcmp_eq_zero_iff _ s1 s2 h1 (by omega)).2 hpre)]
    constructor
    · simp only [UtAssert_StringBufCompare_result, hcmp, decide_eq_true_eq]
      omega
    · simp only [UtAssert_StringBufCompare_result, hcmp, decide_eq_true_eq]
      simp only [decide_eq_false_iff_not]
      omega
  · intro s1 s2 m1 m2 ct File Line st
    rfl

/-- C6 witness: the EQ characterization instantiated at the concrete
buffers "ab" (bound 2) and "abc" (bound 3). -/
theorem utassert_C6_witness :
    (UtAssert_StrFormatLen (some (strBytes "ab")) 2 ≤ (strBytes "ab").length ∧
      UtAssert_StrFormatLen (some (strBytes "abc")) 3 ≤ (strBytes "abc").length) ∧
    (UtAssert_StringBufCompare_result (strBytes "ab") 2 (strBytes "abc") 3 .EQ = true ↔
      (strBytes "ab").take (UtAssert_StrFormatLen (some (strBytes "ab")) 2)
        = (strBytes "abc").take (UtAssert_StrFormatLen (some (strBytes "abc")) 3)) :=
  ⟨⟨by decide, by decide⟩,
    utassert_C6_stringbufcompare.2.1 (strBytes "ab") (strBytes "abc") 2 3
      (by decide) (by decide)⟩

/-- C7 counterexample: a null string pointer with max-length argument 2
is given comparison length 2 by the source (the `EndPtr == NULL` fallback
`FormatLen = StringMax`), not the zero length the claim states. -/
theorem utassert_C7_cex : ¬ (UtAssert_StrFormatLen none 2 = 0) := by
  decide

/-- C7 (amended): for every max-length argument, a null string pointer
yields a comparison length equal to the max-length argument itself, so it
contributes an empty string only when that argument is zero. -/
theorem utassert_C7_null_length (StrMax : Nat) :
    UtAssert_StrFormatLen none StrMax = StrMax := rfl

theorem tagTrim_take (s : List Char) :
    ∀ n, n ≤ s.length →
      s.take (tagTrimLen s n)
        = ((s.take n).reverse.dropWhile (fun c => cIsSpace c || c = ':')).reverse := by
  intro n
  induction n with
  | zero =>
    intro _
    simp [tagTrimLen]
  | succ n ih =>
    intro h
    have hn : n < s.length := by omega
    have htake : s.take (n + 1) = s.take n ++ [s.getD n ' '] := by
      rw [List.take_succ, List.getElem?_eq_getElem hn]
      rw [List.getD_eq_getElem?_getD s n ' ', List.getElem?_eq_getElem hn]
      rfl
    rw [htake, List.reverse_append]
    simp only [List.reverse_cons, List.reverse_nil, List.nil_append, List.singleton_append]
    simp only [List.dropWhile_cons]
    have hdef : tagTrimLen s (n + 1)
        = if (cIsSpace (s.getD n ' ') || s.getD n ' ' = ':') = true then tagTrimLen s n
          else n + 1 := rfl
    by_cases hp : (cIsSpace (s.getD n ' ') || s.getD n ' ' = ':') = true
    · rw [if_pos hp, hdef, if_pos hp]
      exact ih (by omega)
    · rw [if_neg hp, hdef, if_neg hp]
      rw [List.reverse_cons, List.reverse_reverse, ← htake]

theorem take_min_29 (t : List Char) : t.take (min t.length 29) = t.take 29 := by
  rcases Nat.le_total t.length 29 with h | h
  · rw [Nat.min_eq_left h, List.take_length, List.take_of_length_le h]
  · rw [Nat.min_eq_right h]

theorem buildTagStr_eq_spec (t : List Char) : buildTagStr t = specTagStr t := by
  unfold buildTagStr specTagStr specTrimTag
  by_cases ht : t = []
  · simp [ht]
  · rw [if_neg ht, if_neg ht]
    have hu := tagTrim_take t (min t.length 29) (Nat.min_le_left _ _)
    rw [take_min_29] at hu
    by_cases h0 : 0 < tagTrimLen t (min t.length 29)
    · rw [if_pos h0]
      have hne : ((t.take 29).reverse.dropWhile (fun c => cIsSpace c || c = ':')).reverse ≠ [] := by
        rw [← hu]
        rw [Ne, List.take_eq_nil_iff]
        push_neg
        exact ⟨by omega, ht⟩
      rw [if_neg hne, hu]
    · rw [if_neg h0]
      have hz : tagTrimLen t (min t.length 29) = 0 := by omega
      have he : ((t.take 29).reverse.dropWhile (fun c => cIsSpace c || c = ':')).reverse = [] := by
        rw [← hu, hz]
        rfl
      rw [he, if_pos rfl]

theorem utStripLabel_eq_spec (l : List Char) : utStripLabel l = specStripLabel l := by
  unfold utStripLabel specStripLabel
  by_cases h : "UTASSERT_".toList.isPrefixOf l = true
  · have hp : "UTASSERT_".toList <+: l := List.isPrefixOf_iff_prefix.1 h
    have ht : "UTASSERT_".toList = l.take ("UTASSERT_".toList).length :=
      List.prefix_iff_eq_take.1 hp
    have hlen : ("UTASSERT_".toList).length = 9 := rfl
    rw [hlen] at ht
    rw [if_pos (ht.symm), if_pos h]
  · have ht : ¬ l.take 9 = "UTASSERT_".toList := by
      intro hc
      apply h
      apply List.isPrefixOf_iff_prefix.2
      apply List.prefix_iff_eq_take.2
      exact hc.symm
    rw [if_neg ht, if_neg h]

/-- C8 (amended): every generic integer compare records through
UtAssertEx (whose 256-byte buffer truncates the message to 255
characters) a message that is exactly the concatenation
tag ++ actualText ++ " (" ++ actualValueText ++ ") " ++ opText ++ " " ++
referenceText ++ " (" ++ referenceValueText ++ ")", where the tag prefix
is built from the first 29 characters of the type tag trimmed of
trailing whitespace and colons (an empty result giving no prefix, "int32"
giving "int32: ") and operand labels beginning with "UTASSERT_" are
displayed with the prefix stripped. -/
theorem utassert_C8_message :
    (∀ (IsUnsigned : Bool) (a : Int) (ct : UtAssert_Compare_t) (r : Int)
        (File : List Char) (Line : Nat) (rad : UtAssert_Radix_t)
        (tn atxt rtxt : List Char) (st : UtState),
      UtAssert_GenericIntegerCompare IsUnsigned a ct r File Line rad tn atxt rtxt st
        = UtAssertEx (UtAssert_DoCompare a ct r IsUnsigned) UTASSERT_CASETYPE_FAILURE File Line
            (specTagStr tn ++ specStripLabel atxt ++ " (".toList
              ++ UtAssert_GetValueText 32 a IsUnsigned (utEffRadix tn rad) ++ ") ".toList
              ++ UtAssert_GetOpText ct ++ [' '] ++ specStripLabel rtxt ++ " (".toList
              ++ UtAssert_GetValueText 32 r IsUnsigned (utEffRadix tn rad) ++ [')']) st) ∧
    (specTagStr ("int32".toList) = "int32: ".toList ∧ specTagStr [] = []) ∧
    specStripLabel ("UTASSERT_FOO".toList) = "FOO".toList := by
  refine ⟨?_, ⟨by decide, by decide⟩, by decide⟩
  intro IsUnsigned a ct r File Line rad tn atxt rtxt st
  unfold UtAssert_GenericIntegerCompare UtAssert_GenericIntegerCompare_FinalMsg
  rw [buildTagStr_eq_spec, utStripLabel_eq_spec, utStripLabel_eq_spec]

/-- C8 counterexample: for a 31-character type tag with no trailing
whitespace or colons, the generated message does not carry the full tag
as its prefix (the source clamps the tag to 29 characters), so the
message is not the claimed "<tag><actualText> (...)..." text built from
the whole trimmed tag. -/
theorem utassert_C8_cex :
    UtAssert_GenericIntegerCompare_FinalMsg true 5 .EQ 5 .DEFAULT (List.replicate 31 'a')
        ("x".toList) ("y".toList)
      ≠ List.replicate 31 'a' ++ ": ".toList ++ "x (5) == y (5)".toList := by
  decide
